import Mathlib

/-!
Verification of the BNCC RAG pipeline (taxonomy validators, relevance scorer,
code extractor, deduplicator, multi-query aggregation).

Strings of the TypeScript source are embedded as lists of characters
(`LChar`); the JavaScript string methods used by the source
(`toLowerCase`, `toUpperCase`, `includes`, `startsWith`, `split`, `trim`,
`substring`, `indexOf`) are modelled as executable functions on `LChar`.
The case maps are modelled character by character over the character
repertoire actually used by the program's string literals (ASCII letters
plus the accented Latin vowels and cedilla of the Portuguese words in the
source); on those characters they agree with the JavaScript methods.
The two regular expressions for taxonomy codes and the grade patterns are
modelled as deterministic matchers; the source patterns have fixed-width
pieces (or greedy pieces whose shorter alternatives can never succeed, as
the next required character class is disjoint), so the greedy
backtracking-free reading used here coincides with the JavaScript
semantics.
-/

abbrev LChar := List Char

/-- Character-wise model of `String.prototype.toLowerCase` on the
repertoire used by the program. -/
def minusculaChar (c : Char) : Char :=
  if c.isUpper then c.toLower
  else if c = 'É' then 'é'
  else if c = 'Á' then 'á'
  else if c = 'Â' then 'â'
  else if c = 'Ã' then 'ã'
  else if c = 'Ê' then 'ê'
  else if c = 'Í' then 'í'
  else if c = 'Ó' then 'ó'
  else if c = 'Ô' then 'ô'
  else if c = 'Õ' then 'õ'
  else if c = 'Ú' then 'ú'
  else if c = 'Ç' then 'ç'
  else c

/-- Character-wise model of `String.prototype.toUpperCase` on the
repertoire used by the program. -/
def maiusculaChar (c : Char) : Char :=
  if c.isLower then c.toUpper
  else if c = 'é' then 'É'
  else if c = 'á' then 'Á'
  else if c = 'â' then 'Â'
  else if c = 'ã' then 'Ã'
  else if c = 'ê' then 'Ê'
  else if c = 'í' then 'Í'
  else if c = 'ó' then 'Ó'
  else if c = 'ô' then 'Ô'
  else if c = 'õ' then 'Õ'
  else if c = 'ú' then 'Ú'
  else if c = 'ç' then 'Ç'
  else c

def paraMinusculas (s : LChar) : LChar := s.map minusculaChar

def paraMaiusculas (s : LChar) : LChar := s.map maiusculaChar

/-- JavaScript `\s` / `trim` whitespace class (ASCII part). -/
def ehEspaco (c : Char) : Bool :=
  c = ' ' || c = '\t' || c = '\n' || c = '\r' || c = '\u000b' || c = '\u000c'

/-- `alvo` is a prefix of `s` (model of `String.prototype.startsWith`). -/
def prefixoDe : LChar → LChar → Bool
  | [], _ => true
  | _ :: _, [] => false
  | p :: ps, c :: cs => p = c && prefixoDe ps cs

/-- `s` contains `alvo` as a contiguous substring (model of
`String.prototype.includes`). -/
def contem : LChar → LChar → Bool
  | [], alvo => alvo.isEmpty
  | c :: rest, alvo => prefixoDe alvo (c :: rest) || contem rest alvo

/-- Model of `String.prototype.trim`. -/
def aparar (s : LChar) : LChar :=
  ((s.dropWhile ehEspaco).reverse.dropWhile ehEspaco).reverse

/-- Model of `String.prototype.split` with a single-character separator. -/
def divide (sep : Char) : LChar → List LChar
  | [] => [[]]
  | c :: rest =>
    if c = sep then [] :: divide sep rest
    else
      match divide sep rest with
      | g :: gs => (c :: g) :: gs
      | [] => [[c]]

/-- Model of `Array.prototype.join`. -/
def junta (sep : LChar) : List LChar → LChar
  | [] => []
  | [s] => s
  | s :: rest => s ++ sep ++ junta sep rest

/-- First position of character `alvo` in `s` (model of `indexOf`). -/
def posDeChar : LChar → Char → Option Nat
  | [], _ => none
  | c :: rest, alvo => if c = alvo then some 0 else (posDeChar rest alvo).map Nat.succ

def valorDigito (c : Char) : Nat := c.toNat - '0'.toNat

/-- `parseInt(_, 10)` applied to a nonempty run of decimal digits. -/
def lerNumero (ds : LChar) : Nat := ds.foldl (fun n c => n * 10 + valorDigito c) 0

def digitChar (d : Nat) : Char := Char.ofNat ('0'.toNat + d)

/-- `NivelEscolar` type of the source (`"medio" | "fundamental"`). -/
inductive NivelEscolar where
  | medio
  | fundamental
deriving DecidableEq, Repr

/-- `detectarNivelEscolar` (src/src/utils/validators.ts): uppercase the
grade label and test for the substrings `SÉRIE` / `SERIE`. -/
def detectarNivelEscolar (serie : LChar) : NivelEscolar :=
  let serieUpper := paraMaiusculas serie
  if contem serieUpper ['S', 'É', 'R', 'I', 'E'] || contem serieUpper ['S', 'E', 'R', 'I', 'E'] then
    .medio
  else
    .fundamental

/-- `validarHabilidadeNivel` (src/src/utils/validators.ts). -/
def validarHabilidadeNivel (codigo : LChar) (nivelEscolar : NivelEscolar) : Bool :=
  match nivelEscolar with
  | .medio => prefixoDe ['E', 'M'] codigo
  | .fundamental => prefixoDe ['E', 'F'] codigo

/-- The `codigo.match(/^EF(\d{2})/)` parse used by `validarHabilidadeAno`:
the two digit values after a literal `EF` prefix, if present. -/
def efDoisDigitos : LChar → Option (Nat × Nat)
  | 'E' :: 'F' :: a :: b :: _ =>
    if a.isDigit && b.isDigit then some (valorDigito a, valorDigito b) else none
  | _ => none

/-- `validarHabilidadeAno` (src/unnamed/part_003, lines 277-306): the
variant used by the scorer and the extractor.  Single-grade codes
(`EF0d`) accept the expected grade within a tolerance of one; cycle codes
(`EFdd` with nonzero first digit) accept grades inside the inclusive
range; middle-school codes and unparseable codes are accepted. -/
def validarHabilidadeAno (codigo : LChar) (anoEsperado : Option Nat) : Bool :=
  match anoEsperado with
  | none => true
  | some ano =>
    if prefixoDe ['E', 'M'] codigo then true
    else
      match efDoisDigitos codigo with
      | none => true
      | some (d1, d2) =>
        if d1 = 0 then decide (((d2 : Int) - (ano : Int)).natAbs ≤ 1)
        else decide (d1 ≤ ano ∧ ano ≤ d2)

/-- The anchored structural parse
`codigo.match(/^(EF|EM)\d{2}([A-Z]{2,3})\d{2,3}$/)` used by
`validarHabilidadeArea`; returns the captured area letters.  The greedy
`[A-Z]{2,3}` can never succeed with fewer letters than the maximal run
(the following `\d` class is disjoint from `[A-Z]`), so the parse takes
the maximal uppercase run and requires the remainder to be 2 or 3 digits
ending the string. -/
def casaGramaticaCodigo : LChar → Option LChar
  | 'E' :: c1 :: d1 :: d2 :: resto =>
    if (c1 = 'F' || c1 = 'M') && d1.isDigit && d2.isDigit then
      let letras := resto.takeWhile Char.isUpper
      let digitos := resto.dropWhile Char.isUpper
      if (letras.length = 2 || letras.length = 3) && digitos.all Char.isDigit
          && (digitos.length = 2 || digitos.length = 3) then
        some letras
      else none
    else none
  | _ => none

/-- The `mapeamentoFundamentalParaArea` table of `validarHabilidadeArea`. -/
def mapeamentoFundamentalParaArea : List (LChar × LChar) :=
  [("HI".toList, "CHS".toList), ("GE".toList, "CHS".toList),
   ("LP".toList, "LGG".toList), ("AR".toList, "LGG".toList),
   ("EF".toList, "LGG".toList), ("LI".toList, "LGG".toList),
   ("MA".toList, "MAT".toList), ("CI".toList, "CNT".toList)]

/-- First-match association lookup (model of an object-literal index). -/
def busca : List (LChar × LChar) → LChar → Option LChar
  | [], _ => none
  | (c, d) :: rest, alvo => if c = alvo then some d else busca rest alvo

/-- `validarHabilidadeArea` (src/unnamed/part_003, lines 318-352). -/
def validarHabilidadeArea (codigo : LChar) (areaEsperada : Option LChar) : Bool :=
  match areaEsperada with
  | none => true
  | some area =>
    if area.isEmpty then true
    else
      match casaGramaticaCodigo codigo with
      | none => false
      | some codigoDisciplina =>
        if area.length = 2 then codigoDisciplina = area
        else if area.length = 3 && prefixoDe ['E', 'M'] codigo then codigoDisciplina = area
        else
          match busca mapeamentoFundamentalParaArea codigoDisciplina with
          | some areaGeral => areaGeral = area
          | none => false

/-- Attempted match of `/(\d+)[ºª°]?\s*(ano|série|serie)/i` at the start
of `s`: a nonempty digit run, an optional ordinal mark, optional
whitespace, then one of the grade words case-insensitively.  Returns the
parsed captured number. -/
def casaAnoEm (s : LChar) : Option Nat :=
  let ds := s.takeWhile Char.isDigit
  if ds.isEmpty then none
  else
    let resto := s.dropWhile Char.isDigit
    let resto2 :=
      match resto with
      | c :: r => if c = 'º' || c = 'ª' || c = '°' then r else resto
      | [] => []
    let resto3 := resto2.dropWhile ehEspaco
    let baixo := paraMinusculas resto3
    if prefixoDe "ano".toList baixo || prefixoDe "série".toList baixo
        || prefixoDe "serie".toList baixo then
      some (lerNumero ds)
    else none

/-- First (leftmost) match of the grade-word pattern in `s`. -/
def primeiroCasamentoAno : LChar → Option Nat
  | [] => none
  | c :: rest =>
    match casaAnoEm (c :: rest) with
    | some n => some n
    | none => primeiroCasamentoAno rest

/-- First match of `/\d+/` in `s`: the value of the first maximal digit
run. -/
def primeiroNumero : LChar → Option Nat
  | [] => none
  | c :: rest =>
    if c.isDigit then some (lerNumero ((c :: rest).takeWhile Char.isDigit))
    else primeiroNumero rest

/-- First match of `/(\d+)/` in `s` as the matched digit string (used by
the scorer's `serie.match(/(\d+)/)`). -/
def primeiroNumeroStr : LChar → Option LChar
  | [] => none
  | c :: rest =>
    if c.isDigit then some ((c :: rest).takeWhile Char.isDigit)
    else primeiroNumeroStr rest

/-- `extrairNumeroAno` (src/unnamed/part_003, lines 180-196; identical in
src/src/controllers/context.controller.ts): a grade-word-adjacent number
wins; otherwise the first embedded number is accepted only inside 1-9. -/
def extrairNumeroAno (serie : LChar) : Option Nat :=
  match primeiroCasamentoAno serie with
  | some n => some n
  | none =>
    match primeiroNumero serie with
    | some num => if 1 ≤ num ∧ num ≤ 9 then some num else none
    | none => none

/-- `MAPEAMENTO_MEDIO` table (src/unnamed/part_003): subject names to
3-letter middle-school area codes. -/
def MAPEAMENTO_MEDIO : List (LChar × LChar) :=
  [("história".toList, "CHS".toList), ("historia".toList, "CHS".toList),
   ("geografia".toList, "CHS".toList), ("filosofia".toList, "CHS".toList),
   ("sociologia".toList, "CHS".toList),
   ("ciências humanas".toList, "CHS".toList), ("ciencias humanas".toList, "CHS".toList),
   ("ciências humanas e sociais".toList, "CHS".toList),
   ("ciencias humanas e sociais".toList, "CHS".toList),
   ("português".toList, "LGG".toList), ("portugues".toList, "LGG".toList),
   ("língua portuguesa".toList, "LGG".toList), ("lingua portuguesa".toList, "LGG".toList),
   ("artes".toList, "LGG".toList),
   ("educação física".toList, "LGG".toList), ("educacao fisica".toList, "LGG".toList),
   ("inglês".toList, "LGG".toList), ("ingles".toList, "LGG".toList),
   ("língua inglesa".toList, "LGG".toList), ("lingua inglesa".toList, "LGG".toList),
   ("espanhol".toList, "LGG".toList), ("linguagens".toList, "LGG".toList),
   ("produção textual".toList, "LGG".toList), ("producao textual".toList, "LGG".toList),
   ("redação".toList, "LGG".toList), ("redacao".toList, "LGG".toList),
   ("matemática".toList, "MAT".toList), ("matematica".toList, "MAT".toList),
   ("biologia".toList, "CNT".toList),
   ("química".toList, "CNT".toList), ("quimica".toList, "CNT".toList),
   ("física".toList, "CNT".toList), ("fisica".toList, "CNT".toList),
   ("ciências".toList, "CNT".toList), ("ciencias".toList, "CNT".toList),
   ("ciências da natureza".toList, "CNT".toList), ("ciencias da natureza".toList, "CNT".toList)]

/-- `MAPEAMENTO_FUNDAMENTAL` table (src/unnamed/part_003): subject names
to 2-letter elementary-school area codes. -/
def MAPEAMENTO_FUNDAMENTAL : List (LChar × LChar) :=
  [("história".toList, "HI".toList), ("historia".toList, "HI".toList),
   ("geografia".toList, "GE".toList),
   ("português".toList, "LP".toList), ("portugues".toList, "LP".toList),
   ("língua portuguesa".toList, "LP".toList), ("lingua portuguesa".toList, "LP".toList),
   ("artes".toList, "AR".toList),
   ("educação física".toList, "EF".toList), ("educacao fisica".toList, "EF".toList),
   ("lingua inglêsa".toList, "LI".toList), ("lingua inglesa".toList, "LI".toList),
   ("língua inglesa".toList, "LI".toList), ("inglês".toList, "LI".toList),
   ("espanhol".toList, "LI".toList),
   ("matemática".toList, "MA".toList), ("matematica".toList, "MA".toList),
   ("ciências".toList, "CI".toList), ("ciencias".toList, "CI".toList),
   ("ciências naturais".toList, "CI".toList), ("ciencias naturais".toList, "CI".toList)]

def disciplinasEspecificasMedio : List LChar :=
  ["biologia".toList, "química".toList, "quimica".toList, "física".toList,
   "fisica".toList, "filosofia".toList, "sociologia".toList]

/-- `detectarAreaBNCC` (src/unnamed/part_003, lines 157-171). -/
def detectarAreaBNCC (disciplina : LChar) (nivelEscolar : Option NivelEscolar) : Option LChar :=
  let disciplinaLower := aparar (paraMinusculas disciplina)
  if nivelEscolar = none && disciplinasEspecificasMedio.contains disciplinaLower then
    busca MAPEAMENTO_MEDIO disciplinaLower
  else if nivelEscolar = some .medio then
    busca MAPEAMENTO_MEDIO disciplinaLower
  else
    busca MAPEAMENTO_FUNDAMENTAL disciplinaLower

/-- A retrieved node as consumed by the pipeline: `node.node?.text`,
`node.node?.metadata?.page_number` and `node.score` are the only fields
the core reads. -/
structure SourceNode where
  text : Option LChar
  page_number : Option Nat
  score : Option Rat
deriving DecidableEq, Repr

/-- A node enriched by the relevance scorer (`{...node, matchCount,
penalizacaoNivel, boostedScore, nivelCorreto}`). -/
structure Enriched where
  base : SourceNode
  matchCount : Int
  penalizacaoNivel : Int
  boostedScore : Rat
  nivelCorreto : Bool
deriving DecidableEq, Repr

/-- A `{codigo, descricao}` skill record returned by the extractor. -/
structure Habilidade where
  codigo : LChar
  descricao : LChar
deriving DecidableEq, Repr

/-- Case-sensitive match attempt of the taxonomy-code pattern
`/(EF\d{2}[A-Z]{2}\d{2}|EM\d{2}[A-Z]{3}\d{2,3})/` at the start of `s`;
returns the match length (8 for the EF branch, 9 or 10 for the EM branch,
whose trailing `\d{2,3}` is greedy). -/
def tamCodigoEm : LChar → Option Nat
  | 'E' :: 'F' :: d1 :: d2 :: l1 :: l2 :: d3 :: d4 :: _ =>
    if d1.isDigit && d2.isDigit && l1.isUpper && l2.isUpper && d3.isDigit && d4.isDigit then
      some 8
    else none
  | 'E' :: 'M' :: d1 :: d2 :: l1 :: l2 :: l3 :: d3 :: d4 :: resto =>
    if d1.isDigit && d2.isDigit && l1.isUpper && l2.isUpper && l3.isUpper
        && d3.isDigit && d4.isDigit then
      match resto with
      | d5 :: _ => if d5.isDigit then some 10 else some 9
      | [] => some 9
    else none
  | _ => none

def ehLetraCI (c : Char) : Bool := c.isUpper || c.isLower

def igualCI (a c : Char) : Bool := minusculaChar c = minusculaChar a

/-- Case-insensitive variant of `tamCodigoEm`, for the scorer's `/gi`
regex. -/
def tamCodigoEmCI : LChar → Option Nat
  | e :: fm :: d1 :: d2 :: resto =>
    if igualCI 'e' e && igualCI 'f' fm && d1.isDigit && d2.isDigit then
      match resto with
      | l1 :: l2 :: d3 :: d4 :: _ =>
        if ehLetraCI l1 && ehLetraCI l2 && d3.isDigit && d4.isDigit then some 8 else casaEMCI e fm d1 d2 resto
      | _ => casaEMCI e fm d1 d2 resto
    else casaEMCI e fm d1 d2 resto
  | _ => none
where
  casaEMCI (e fm d1 d2 : Char) (resto : LChar) : Option Nat :=
    if igualCI 'e' e && igualCI 'm' fm && d1.isDigit && d2.isDigit then
      match resto with
      | l1 :: l2 :: l3 :: d3 :: d4 :: resto2 =>
        if ehLetraCI l1 && ehLetraCI l2 && ehLetraCI l3 && d3.isDigit && d4.isDigit then
          match resto2 with
          | d5 :: _ => if d5.isDigit then some 10 else some 9
          | [] => some 9
        else none
      | _ => none
    else none

/-- All non-overlapping matches of a code pattern in `s`, left to right,
as matched substrings (model of `texto.match(regex)` with the `g` flag).
`fuel` bounds the recursion; every step consumes at least one character,
so `s.length` fuel is enough. -/
def buscaCodigosAux (tam : LChar → Option Nat) : Nat → LChar → List LChar
  | 0, _ => []
  | _ + 1, [] => []
  | fuel + 1, c :: rest =>
    match tam (c :: rest) with
    | some n => (c :: rest).take n :: buscaCodigosAux tam fuel ((c :: rest).drop n)
    | none => buscaCodigosAux tam fuel rest

def buscaCodigosCI (s : LChar) : List LChar := buscaCodigosAux tamCodigoEmCI s.length s

/-- First position in `s` at which the case-sensitive code pattern
matches (model of `texto.search(regex)`). -/
def buscaPosCodigo : LChar → Option Nat
  | [] => none
  | c :: rest =>
    if (tamCodigoEm (c :: rest)).isSome then some 0 else (buscaPosCodigo rest).map Nat.succ

-- The `PONTUACAO` constants (src/unnamed/part_003, lines 374-387).
namespace PONTUACAO

def BOOST_HABILIDADE_NIVEL_CORRETO : Int := 5
def BOOST_HABILIDADE_AREA_CORRETA : Int := 10
def BOOST_HABILIDADE_ANO_CORRETO : Int := 8
def BOOST_MENCIONOU_NIVEL_CORRETO : Int := 4
def BOOST_DISCIPLINA : Int := 3
def BOOST_SERIE : Int := 2
def BOOST_TEMA_EXATO : Int := 80
def BOOST_TEMA_PARCIAL : Int := 10
def PENALIDADE_HABILIDADE_NIVEL_ERRADO : Int := -50
def PENALIDADE_HABILIDADE_AREA_ERRADA : Int := -40
def PENALIDADE_HABILIDADE_ANO_ERRADO : Int := -35
def PENALIDADE_MENCIONOU_NIVEL_ERRADO : Int := -20

end PONTUACAO

/-- JavaScript truthiness of the optional area string (`null` and the
empty string are falsy). -/
def areaTruthy : Option LChar → Bool
  | none => false
  | some a => !a.isEmpty

/-- The per-found-code boost/penalty step of the scorer (step 4 of
`filtrarNodesPorRelevancia`), acting on the running
`(boostScore, penaltyScore)` pair. -/
def passoCodigo (nivelEscolar : NivelEscolar) (anoEsperado : Option Nat)
    (areaBNCC : Option LChar) (bp : Int × Int) (codigo : LChar) : Int × Int :=
  let codigoUpper := paraMaiusculas codigo
  if validarHabilidadeNivel codigoUpper nivelEscolar then
    let b1 := bp.1 + PONTUACAO.BOOST_HABILIDADE_NIVEL_CORRETO
    let bp2 :=
      if anoEsperado.isSome && decide (nivelEscolar = .fundamental) then
        if validarHabilidadeAno codigoUpper anoEsperado then
          (b1 + PONTUACAO.BOOST_HABILIDADE_ANO_CORRETO, bp.2)
        else (b1, bp.2 + PONTUACAO.PENALIDADE_HABILIDADE_ANO_ERRADO)
      else (b1, bp.2)
    if areaTruthy areaBNCC then
      if validarHabilidadeArea codigoUpper areaBNCC then
        (bp2.1 + PONTUACAO.BOOST_HABILIDADE_AREA_CORRETA, bp2.2)
      else (bp2.1, bp2.2 + PONTUACAO.PENALIDADE_HABILIDADE_AREA_ERRADA)
    else bp2
  else (bp.1, bp.2 + PONTUACAO.PENALIDADE_HABILIDADE_NIVEL_ERRADO)

/-- The level words searched by step 5 of the scorer: the correct-level
phrase and the wrong-level phrases for each level. -/
def palavrasNivel : NivelEscolar → LChar × List LChar
  | .medio =>
    ("ensino médio".toList,
     ["ensino fundamental".toList, "anos iniciais".toList, "anos finais".toList,
      "fundamental ii".toList])
  | .fundamental =>
    ("ensino fundamental".toList, ["ensino médio".toList, "ensino medio".toList])

def palavrasExcecao : List LChar :=
  ["to".toList, "be".toList, "fé".toList, "up".toList, "on".toList,
   "in".toList, "at".toList, "by".toList, "of".toList]

/-- The per-node enrichment of `filtrarNodesPorRelevancia`
(src/unnamed/part_003, lines 406-481): boosts for exact topic phrase,
topic keywords, subject mention, grade-number mention, found taxonomy
codes and correct-level phrases; penalties for wrong-level /
wrong-area / wrong-grade codes and wrong-level phrases. -/
def enriquecerNode (tema disciplina serie : LChar) (areaBNCC : Option LChar)
    (nivelEscolar : NivelEscolar) (anoEsperado : Option Nat)
    (palavraNivelCorreto : LChar) (palavrasNivelErrado : List LChar)
    (node : SourceNode) : Enriched :=
  let texto := paraMinusculas (node.text.getD [])
  let temaLower := aparar (paraMinusculas tema)
  let b0 : Int := if contem texto temaLower then PONTUACAO.BOOST_TEMA_EXATO else 0
  let palavrasChaveTema := (divide ' ' temaLower).filter
    (fun p => decide (p.length > 2) || palavrasExcecao.contains p)
  let b1 := palavrasChaveTema.foldl
    (fun b p => if contem texto p then b + PONTUACAO.BOOST_TEMA_PARCIAL else b) b0
  let b2 := if contem texto (paraMinusculas disciplina) then b1 + PONTUACAO.BOOST_DISCIPLINA else b1
  let b3 :=
    match primeiroNumeroStr serie with
    | some ds => if contem texto ds then b2 + PONTUACAO.BOOST_SERIE else b2
    | none => b2
  let codigosEncontrados := buscaCodigosCI texto
  let bp := codigosEncontrados.foldl (passoCodigo nivelEscolar anoEsperado areaBNCC) (b3, 0)
  let b5 := if contem texto palavraNivelCorreto then
      bp.1 + PONTUACAO.BOOST_MENCIONOU_NIVEL_CORRETO
    else bp.1
  let p5 := palavrasNivelErrado.foldl
    (fun p w => if contem texto w then p + PONTUACAO.PENALIDADE_MENCIONOU_NIVEL_ERRADO else p) bp.2
  { base := node
    matchCount := b5
    penalizacaoNivel := p5
    boostedScore := (node.score.getD 0) * 100 + ((b5 + p5 : Int) : Rat)
    nivelCorreto := decide (p5 ≥ 0) || codigosEncontrados.isEmpty }

/-- The `nodes.map(...)` enrichment pass of `filtrarNodesPorRelevancia`,
with the per-request values (`nivelEscolar`, `anoEsperado`, level
phrases) computed once as in the source. -/
def enriquecerNodes (nodes : List SourceNode) (tema disciplina serie : LChar)
    (areaBNCC : Option LChar) : List Enriched :=
  let nivelEscolar := detectarNivelEscolar serie
  let anoEsperado := extrairNumeroAno serie
  let pal := palavrasNivel nivelEscolar
  nodes.map (enriquecerNode tema disciplina serie areaBNCC nivelEscolar anoEsperado pal.1 pal.2)

/-- The filtering predicate of `filtrarNodesPorRelevancia` (lines
482-490): drop when the accumulated penalty is below the hard cutoff of
-30, otherwise keep nodes with some boost or without disqualifying
codes. -/
def filtroRelevancia (e : Enriched) : Bool :=
  if e.penalizacaoNivel < -30 then false
  else decide (e.matchCount > 0) || e.nivelCorreto

/-- Stable insertion into a list sorted by `boostedScore` descending. -/
def insereDesc (x : Enriched) : List Enriched → List Enriched
  | [] => [x]
  | y :: ys => if x.boostedScore ≥ y.boostedScore then x :: y :: ys else y :: insereDesc x ys

/-- Stable sort by `boostedScore` descending (model of
`sort((a, b) => b.boostedScore - a.boostedScore)`). -/
def ordenaDesc : List Enriched → List Enriched
  | [] => []
  | x :: xs => insereDesc x (ordenaDesc xs)

/-- `filtrarNodesPorRelevancia` (src/unnamed/part_003, lines 397-493). -/
def filtrarNodesPorRelevancia (nodes : List SourceNode) (tema disciplina serie : LChar)
    (areaBNCC : Option LChar) : List Enriched :=
  ordenaDesc ((enriquecerNodes nodes tema disciplina serie areaBNCC).filter filtroRelevancia)

/-- The leading-marker strip, trim and 200-character truncation applied
to a captured description (`replace(/^\s*[-–—):\s]+/, '')`, `trim()`, and
`substring(0, 200) + '...'` when longer than 200). -/
def processaDescricao (bruto : LChar) : LChar :=
  let semInicio := bruto.dropWhile
    (fun c => ehEspaco c || c = '-' || c = '–' || c = '—' || c = ')' || c = ':')
  let limpo := aparar semInicio
  if limpo.length > 200 then limpo.take 200 ++ ['.', '.', '.'] else limpo

/-- The `while ((match = regex.exec(texto)) !== null)` capture loop of
`extrairHabilidadesBNCC`: each code match together with its processed
trailing description (up to the end of the line or the next code match,
whichever is closer); the search resumes at the end of each match. -/
def capturasAux : Nat → LChar → List (LChar × LChar)
  | 0, _ => []
  | _ + 1, [] => []
  | fuel + 1, c :: rest =>
    match tamCodigoEm (c :: rest) with
    | some n =>
      let codigo := (c :: rest).take n
      let cauda := (c :: rest).drop n
      let fimLinha :=
        match posDeChar cauda '\n' with
        | some j => j
        | none => cauda.length
      let ateFimLinha := cauda.take fimLinha
      let fim :=
        match buscaPosCodigo ateFimLinha with
        | some j => j
        | none => fimLinha
      (codigo, processaDescricao (cauda.take fim)) :: capturasAux fuel cauda
    | none => capturasAux fuel rest

def capturasDoTexto (texto : LChar) : List (LChar × LChar) :=
  capturasAux texto.length texto

/-- All captures of a node list, in node order (the extractor's outer
`for` loop). -/
def capturasDe (nodes : List Enriched) : List (LChar × LChar) :=
  nodes.flatMap (fun nd => capturasDoTexto (nd.base.text.getD []))

/-- `habilidades.set(codigo, descricao)` under the guard
`!habilidades.has(codigo) || habilidades.get(codigo).length <
descricao.length`: keep the longer description for an existing code,
preserving insertion order. -/
def gravaMaisLonga : List (LChar × LChar) → LChar → LChar → List (LChar × LChar)
  | [], c, d => [(c, d)]
  | (c', d') :: rest, c, d =>
    if c' = c then
      if d'.length < d.length then (c', d) :: rest else (c', d') :: rest
    else (c', d') :: gravaMaisLonga rest c d

/-- One capture-processing step: descriptions of more than 10 characters
are recorded, shorter ones are discarded as noise. -/
def passoCaptura (m : List (LChar × LChar)) (par : LChar × LChar) : List (LChar × LChar) :=
  if par.2.length > 10 then gravaMaisLonga m par.1 par.2 else m

/-- JavaScript truthiness of the optional expected grade (`null` and `0`
are falsy, as in the source's `!anoEsperado ||` guard). -/
def anoTruthy : Option Nat → Bool
  | none => false
  | some n => decide (n ≠ 0)

/-- `extrairHabilidadesBNCC` (src/unnamed/part_003, lines 501-584):
capture code/description pairs, merge duplicates keeping the longest
description, filter by level / area / grade, return the first 15. -/
def extrairHabilidadesBNCC (nodes : List Enriched) (nivelEscolar : NivelEscolar)
    (areaBNCC : Option LChar) (anoEsperado : Option Nat) : List Habilidade :=
  let habilidades := (capturasDe nodes).foldl passoCaptura []
  let habilidadesFiltradas := habilidades.filter (fun par =>
    validarHabilidadeNivel par.1 nivelEscolar
      && (!areaTruthy areaBNCC || validarHabilidadeArea par.1 areaBNCC)
      && (!anoTruthy anoEsperado || validarHabilidadeAno par.1 anoEsperado))
  (habilidadesFiltradas.take 15).map (fun par => { codigo := par.1, descricao := par.2 })

/-- `removerNodesDuplicados` (src/unnamed/part_003, lines 595-607): keep
the first node for each truthy page number, up to `maxNodes` nodes. -/
def removerAux (maxNodes : Nat) :
    List Enriched → List Enriched → List Nat → List Enriched
  | [], uniqueNodes, _ => uniqueNodes
  | node :: rest, uniqueNodes, seenPages =>
    match node.base.page_number with
    | some page =>
      if page ≠ 0 && !seenPages.contains page && decide (uniqueNodes.length < maxNodes) then
        removerAux maxNodes rest (uniqueNodes ++ [node]) (page :: seenPages)
      else removerAux maxNodes rest uniqueNodes seenPages
    | none => removerAux maxNodes rest uniqueNodes seenPages

def removerNodesDuplicados (nodes : List Enriched) (maxNodes : Nat) : List Enriched :=
  removerAux maxNodes nodes [] []

/-- The retrieval result of one planned query (`response`,
`sourceNodes`). -/
structure RAGQueryResult where
  response : LChar
  sourceNodes : List SourceNode
deriving DecidableEq, Repr

/-- The aggregated result of `consultarBNCC`. -/
structure MultiQueryResult where
  response : LChar
  sourceNodes : List Enriched
  habilidades : List Habilidade
deriving DecidableEq, Repr

/-- `consultarBNCC` (src/unnamed/part_002, lines 72-162), from the
per-query retrieval outcomes on: each planned query's outcome is given as
`Except Unit RAGQueryResult` (the external engine may reject); the
`try`/`catch` loop keeps the successful outcomes in order and drops the
failed ones, and the remainder of the function has no failure path, so
the modelled function returns `Except.ok` on every input. -/
def consultarBNCC (tema disciplina serie : LChar)
    (resultados : List (Except Unit RAGQueryResult)) : Except Unit MultiQueryResult :=
  let nivelEscolar := detectarNivelEscolar serie
  let areaBNCC := detectarAreaBNCC disciplina (some nivelEscolar)
  let anoEsperado := extrairNumeroAno serie
  let results := resultados.foldl
    (fun acc r => match r with | .ok q => acc ++ [q] | .error _ => acc) []
  let allNodes := results.flatMap (fun r => r.sourceNodes)
  let nodesFiltrados := filtrarNodesPorRelevancia allNodes tema disciplina serie areaBNCC
  let uniqueNodes := removerNodesDuplicados nodesFiltrados 10
  let combinedResponse := junta ['\n', '\n'] (results.map (fun r => r.response))
  let habilidades := extrairHabilidadesBNCC uniqueNodes nivelEscolar areaBNCC anoEsperado
  .ok { response := combinedResponse, sourceNodes := uniqueNodes, habilidades := habilidades }

def nodeMismatch : SourceNode :=
  { text := some "em13mat302 guerra".toList, page_number := some 3, score := none }

def nodeCorreto : SourceNode :=
  { text := some "guerra fria EF09GE01 texto".toList, page_number := some 4, score := none }

def enriquecido (s : LChar) : Enriched :=
  { base := { text := some s, page_number := some 1, score := none }
    matchCount := 0, penalizacaoNivel := 0, boostedScore := 0, nivelCorreto := true }

/-- Spec-side predicate for claim C8: some 5-character window of the
grade label, uppercased, is the stage word `SÉRIE` or its accentless
variant `SERIE` — i.e. the label contains the stage marker in some case
or accent variant. -/
def contemMarcadorSerie (s : LChar) : Prop :=
  ∃ i : Nat, paraMaiusculas ((s.drop i).take 5) = "SÉRIE".toList ∨
    paraMaiusculas ((s.drop i).take 5) = "SERIE".toList

/-- Spec-side grammar of claim C10: a full structural taxonomy code is a
prefix `EF`/`EM`, two digits, a block of 2-3 uppercase letters and a
trailing block of 2-3 digits ending the string. -/
def GramaticaCodigo (s : LChar) : Prop :=
  ∃ (c1 d1 d2 : Char) (ls ds : LChar),
    s = 'E' :: c1 :: d1 :: d2 :: (ls ++ ds) ∧
    (c1 = 'F' ∨ c1 = 'M') ∧ d1.isDigit = true ∧ d2.isDigit = true ∧
    ls.all Char.isUpper = true ∧ (ls.length = 2 ∨ ls.length = 3) ∧
    ds.all Char.isDigit = true ∧ (ds.length = 2 ∨ ds.length = 3)

section Exemplos

example : detectarNivelEscolar "2ª SÉRIE".toList = .medio := by decide
example : detectarNivelEscolar "7º ANO".toList = .fundamental := by decide
example : detectarNivelEscolar "2ª série".toList = .medio := by decide
example : validarHabilidadeNivel "EM13MAT302".toList .medio = true := by decide
example : validarHabilidadeNivel "EF07MA01".toList .medio = false := by decide
example : validarHabilidadeAno "EF09GE01".toList (some 9) = true := by decide
example : validarHabilidadeAno "EF06GE01".toList (some 9) = false := by decide
example : validarHabilidadeAno "EF15LP01".toList (some 3) = true := by decide
example : validarHabilidadeAno "EF69LP01".toList (some 7) = true := by decide
example : validarHabilidadeAno "EF69LP01".toList (some 5) = false := by decide
example : validarHabilidadeArea "EM13CHS101".toList (some "CHS".toList) = true := by decide
example : validarHabilidadeArea "EM13LGG301".toList (some "CHS".toList) = false := by decide
example : validarHabilidadeArea "EF09CI01".toList (some "CI".toList) = true := by decide
example : validarHabilidadeArea "EF09GE01".toList (some "CHS".toList) = true := by decide
example : validarHabilidadeArea "lixo".toList (some "CI".toList) = false := by decide
example : extrairNumeroAno "9º Ano Fundamental".toList = some 9 := by decide
example : extrairNumeroAno "2ª Série Ensino Médio".toList = some 2 := by decide
example : extrairNumeroAno "1º ano".toList = some 1 := by decide
example : extrairNumeroAno "10º ano".toList = some 10 := by decide
example : extrairNumeroAno "turma 12".toList = none := by decide
example : extrairNumeroAno "turma 7".toList = some 7 := by decide
example : tamCodigoEm "EF09GE01".toList = some 8 := by decide
example : tamCodigoEm "EM13MAT302".toList = some 10 := by decide
example : tamCodigoEm "EM13MAT30".toList = some 9 := by decide
example : tamCodigoEm "ef09ge01".toList = none := by decide
example : tamCodigoEmCI "ef09ge01x".toList = some 8 := by decide
example : tamCodigoEmCI "em13mat302 x".toList = some 10 := by decide
example : buscaCodigosCI "veja EF09GE01 e em13mat302".toList
    = ["EF09GE01".toList, "em13mat302".toList] := by decide
example : buscaPosCodigo "ab EF09GE01".toList = some 3 := by decide

example :
    (enriquecerNodes [nodeMismatch] "guerra".toList "história".toList "7º ano".toList none).map
        (fun e => (e.matchCount, e.penalizacaoNivel))
      = [(90, -50)] := by decide

example :
    filtrarNodesPorRelevancia [nodeMismatch] "guerra".toList "história".toList "7º ano".toList none
      = [] := by decide

example :
    (filtrarNodesPorRelevancia [nodeCorreto] "guerra fria".toList "história".toList
        "9º ano".toList none).length = 1 := by decide

example :
    extrairHabilidadesBNCC [enriquecido ("EF09GE01 - descreve processos migratórios".toList)]
      .fundamental none none
      = [{ codigo := "EF09GE01".toList, descricao := "descreve processos migratórios".toList }] := by
  decide

example :
    extrairHabilidadesBNCC
      [enriquecido ("EF09GE01 descrição curta aqui\nEF09GE01 uma descrição bem mais longa".toList)]
      .fundamental none none
      = [{ codigo := "EF09GE01".toList,
           descricao := "uma descrição bem mais longa".toList }] := by decide

set_option maxRecDepth 20000 in
example :
    (extrairHabilidadesBNCC
        [enriquecido ("EF09GE01 ".toList ++ List.replicate 210 'a')] .fundamental none none).map
      (fun h => h.descricao.length) = [203] := by decide

example :
    (removerNodesDuplicados
        [enriquecido "a".toList,
         { enriquecido "b".toList with base := { text := some "b".toList, page_number := some 1, score := none } },
         { enriquecido "c".toList with base := { text := some "c".toList, page_number := some 2, score := none } },
         { enriquecido "d".toList with base := { text := some "d".toList, page_number := none, score := none } }]
        10).map (fun e => e.base.page_number) = [some 1, some 2] := by decide

example :
    consultarBNCC "luz".toList "ciências".toList "7º ano".toList [.error (), .error ()]
      = .ok { response := [], sourceNodes := [], habilidades := [] } := rfl

end Exemplos

section LemasBasicos

lemma digitChar_isDigit {d : Nat} (h : d ≤ 9) : (digitChar d).isDigit = true := by
  interval_cases d <;> decide

lemma valorDigito_digitChar {d : Nat} (h : d ≤ 9) : valorDigito (digitChar d) = d := by
  interval_cases d <;> decide

lemma prefixoDe_iff_take (t : LChar) : ∀ u : LChar, prefixoDe t u = true ↔ u.take t.length = t := by
  induction t with
  | nil => intro u; simp [prefixoDe]
  | cons p ps ih =>
    intro u
    cases u with
    | nil => simp [prefixoDe]
    | cons c cs =>
      simp only [prefixoDe, List.length_cons, List.take_succ_cons, List.cons.injEq,
        Bool.and_eq_true, decide_eq_true_eq]
      rw [ih cs]
      constructor
      · rintro ⟨h1, h2⟩; exact ⟨h1.symm, h2⟩
      · rintro ⟨h1, h2⟩; exact ⟨h1.symm, h2⟩

lemma contem_iff (t : LChar) : ∀ s : LChar, contem s t = true ↔ ∃ i, prefixoDe t (s.drop i) = true := by
  intro s
  induction s with
  | nil =>
    simp only [contem, List.drop_nil]
    cases t <;> simp [prefixoDe, List.isEmpty]
  | cons c rest ih =>
    simp only [contem, Bool.or_eq_true]
    constructor
    · rintro (h | h)
      · exact ⟨0, h⟩
      · obtain ⟨i, hi⟩ := ih.mp h
        exact ⟨i + 1, by simpa using hi⟩
    · rintro ⟨i, hi⟩
      cases i with
      | zero => exact Or.inl (by simpa using hi)
      | succ j => exact Or.inr (ih.mpr ⟨j, by simpa using hi⟩)

end LemasBasicos

lemma contem_maiusculas_iff (s t : LChar) :
    contem (paraMaiusculas s) t = true ↔
      ∃ i, paraMaiusculas ((s.drop i).take t.length) = t := by
  rw [contem_iff]
  have hmaps : ∀ i, ((paraMaiusculas s).drop i).take t.length
      = paraMaiusculas ((s.drop i).take t.length) := by
    intro i
    simp [paraMaiusculas, List.map_take, List.map_drop]
  constructor
  · rintro ⟨i, hi⟩
    refine ⟨i, ?_⟩
    rw [prefixoDe_iff_take] at hi
    rw [← hmaps i]
    exact hi
  · rintro ⟨i, hi⟩
    refine ⟨i, ?_⟩
    rw [prefixoDe_iff_take, hmaps i]
    exact hi

/-- C8: for every grade label containing a case/accent variant of the
stage word (`série`/`serie`), `detectarNivelEscolar` returns `medio`
(tierB); for every other label it returns `fundamental` (tierA). -/
theorem c8_detectarNivelEscolar_marcador (s : LChar) :
    (detectarNivelEscolar s = .medio ↔ contemMarcadorSerie s) ∧
    (detectarNivelEscolar s = .fundamental ↔ ¬ contemMarcadorSerie s) := by
  have hiff : (contem (paraMaiusculas s) "SÉRIE".toList
        || contem (paraMaiusculas s) "SERIE".toList) = true ↔ contemMarcadorSerie s := by
    rw [Bool.or_eq_true, contem_maiusculas_iff, contem_maiusculas_iff]
    unfold contemMarcadorSerie
    constructor
    · rintro (⟨i, hi⟩ | ⟨i, hi⟩)
      · exact ⟨i, Or.inl hi⟩
      · exact ⟨i, Or.inr hi⟩
    · rintro ⟨i, hi | hi⟩
      · exact Or.inl ⟨i, hi⟩
      · exact Or.inr ⟨i, hi⟩
  have hdef : detectarNivelEscolar s =
      if (contem (paraMaiusculas s) "SÉRIE".toList || contem (paraMaiusculas s) "SERIE".toList)
      then .medio else .fundamental := rfl
  cases hb : (contem (paraMaiusculas s) "SÉRIE".toList
      || contem (paraMaiusculas s) "SERIE".toList) with
  | true =>
    have hmark : contemMarcadorSerie s := hiff.mp hb
    rw [hdef, hb, if_pos rfl]
    exact ⟨by simp [hmark], fun hh => NivelEscolar.noConfusion hh, fun hn => absurd hmark hn⟩
  | false =>
    have hmark : ¬ contemMarcadorSerie s := by
      intro hm
      have h2 := hiff.mpr hm
      rw [hb] at h2
      exact Bool.noConfusion h2
    rw [hdef, hb, if_neg (by decide)]
    exact ⟨⟨fun hh => NivelEscolar.noConfusion hh, fun hm => absurd hm hmark⟩, by simp [hmark]⟩

/-- C2: on a tierA (`EF`) code whose two digits after the prefix are
`0,d2` (single-grade form), `validarHabilidadeAno` accepts an expected
grade `g` iff `|d2 - g| ≤ 1`; on a code whose two digits are a nonzero
pair `d1,d2` (range form), it accepts `g` iff `d1 ≤ g ≤ d2`. -/
theorem c2_validarHabilidadeAno_formas (d1 d2 g : Nat) (resto : LChar)
    (h1 : d1 ≤ 9) (h2 : d2 ≤ 9) :
    (d1 = 0 →
      (validarHabilidadeAno ('E' :: 'F' :: digitChar d1 :: digitChar d2 :: resto) (some g) = true
        ↔ ((d2 : Int) - (g : Int)).natAbs ≤ 1)) ∧
    (d1 ≠ 0 → d2 ≠ 0 →
      (validarHabilidadeAno ('E' :: 'F' :: digitChar d1 :: digitChar d2 :: resto) (some g) = true
        ↔ (d1 ≤ g ∧ g ≤ d2))) := by
  have hEM : prefixoDe ['E', 'M'] ('E' :: 'F' :: digitChar d1 :: digitChar d2 :: resto) = false := by
    rfl
  have hparse : efDoisDigitos ('E' :: 'F' :: digitChar d1 :: digitChar d2 :: resto)
      = some (d1, d2) := by
    simp [efDoisDigitos, digitChar_isDigit h1, digitChar_isDigit h2,
      valorDigito_digitChar h1, valorDigito_digitChar h2]
  constructor
  · intro h0
    subst h0
    simp [validarHabilidadeAno, hEM, hparse]
  · intro hne _hd2
    simp [validarHabilidadeAno, hEM, hparse, hne]

/-- Witness for C2 at the spec's Scenario E: the range code `EF69LP01`
against expected grade 7 (inside the range 6-9). -/
theorem c2_witness :
    validarHabilidadeAno ('E' :: 'F' :: digitChar 6 :: digitChar 9 :: "LP01".toList) (some 7) = true
      ↔ (6 ≤ 7 ∧ 7 ≤ 9) :=
  (c2_validarHabilidadeAno_formas 6 9 7 "LP01".toList (by decide) (by decide)).2
    (by decide) (by decide)

/-- C3 counterexample: the grade label `10º ano` takes the
grade-word-adjacent pattern path of `extrairNumeroAno` and the number 10,
outside 1-9, is returned. -/
theorem c3_contraexemplo :
    extrairNumeroAno "10º ano".toList = some 10 ∧ ¬ (10 ≤ 9) := by
  constructor
  · decide
  · decide

/-- C3 (amended): `extrairNumeroAno` returns `none` or a number; only on
the bare-digit fallback path (taken when the grade-word pattern does not
match) is the result guaranteed to lie within 1-9; the pattern path
returns the adjacent number unchecked. -/
theorem c3_extrairNumeroAno_caminhos (s : LChar) (n : Nat)
    (h : extrairNumeroAno s = some n) :
    primeiroCasamentoAno s = some n ∨
      (primeiroCasamentoAno s = none ∧ 1 ≤ n ∧ n ≤ 9) := by
  unfold extrairNumeroAno at h
  cases hc : primeiroCasamentoAno s with
  | some m =>
    rw [hc] at h
    exact Or.inl h
  | none =>
    rw [hc] at h
    refine Or.inr ⟨rfl, ?_⟩
    cases hn : primeiroNumero s with
    | none =>
      have h2 : (none : Option Nat) = some n := by rw [hn] at h; exact h
      exact absurd h2 (by simp)
    | some num =>
      rw [hn] at h
      have h2 : (if 1 ≤ num ∧ num ≤ 9 then some num else none) = some n := h
      by_cases hr : 1 ≤ num ∧ num ≤ 9
      · rw [if_pos hr] at h2
        cases h2
        exact hr
      · rw [if_neg hr] at h2
        exact absurd h2 (by simp)

/-- Witness for C3 (amended) on the label `turma 7`, which takes the
fallback path. -/
theorem c3_witness :
    primeiroCasamentoAno "turma 7".toList = some 7 ∨
      (primeiroCasamentoAno "turma 7".toList = none ∧ 1 ≤ 7 ∧ 7 ≤ 9) :=
  c3_extrairNumeroAno_caminhos "turma 7".toList 7 (by decide)

lemma casaGramatica_some_implica_gramatica {s : LChar} {l : LChar}
    (h : casaGramaticaCodigo s = some l) : GramaticaCodigo s := by
  unfold casaGramaticaCodigo at h
  split at h
  case _ c1 d1 d2 resto =>
    split at h
    case isTrue hg =>
      simp only [] at h
      split at h
      case isTrue hg2 =>
        simp only [Bool.and_eq_true, Bool.or_eq_true, decide_eq_true_eq] at hg hg2
        refine ⟨c1, d1, d2, resto.takeWhile Char.isUpper, resto.dropWhile Char.isUpper,
          ?_, ?_, hg.1.2, hg.2, ?_, ?_, hg2.1.2, ?_⟩
        · rw [List.takeWhile_append_dropWhile]
        · rcases hg.1.1 with hF | hM
          · exact Or.inl hF
          · exact Or.inr hM
        · rw [List.all_eq_true]
          intro x hx
          exact List.mem_takeWhile_imp hx
        · rcases hg2.1.1 with h2 | h3
          · exact Or.inl h2
          · exact Or.inr h3
        · rcases hg2.2 with h2 | h3
          · exact Or.inl h2
          · exact Or.inr h3
      case isFalse => exact absurd h (by simp)
    case isFalse => exact absurd h (by simp)
  case _ => exact absurd h (by simp)

/-- C10: with a non-absent (nonempty) expected area, area validation
rejects every string outside the full structural code grammar, whereas
grade validation accepts any non-`EM` code it cannot parse. -/
theorem c10_area_rejeita_malformados (codigo area : LChar) (ano : Nat)
    (hA : area ≠ []) (hG : ¬ GramaticaCodigo codigo) :
    validarHabilidadeArea codigo (some area) = false ∧
    (prefixoDe ['E', 'M'] codigo = false → efDoisDigitos codigo = none →
      validarHabilidadeAno codigo (some ano) = true) := by
  have hcasa : casaGramaticaCodigo codigo = none := by
    cases hc : casaGramaticaCodigo codigo with
    | none => rfl
    | some l => exact absurd (casaGramatica_some_implica_gramatica hc) hG
  have hvazio : area.isEmpty = false := by
    cases area with
    | nil => exact absurd rfl hA
    | cons c rest => rfl
  constructor
  · unfold validarHabilidadeArea
    simp only []
    rw [hvazio, hcasa]
    simp
  · intro hEM hEF
    unfold validarHabilidadeAno
    rw [hEM, hEF]
    simp

/-- Witness for C10: the malformed string `XYZ` with expected area `CI`
and expected grade 5. -/
theorem c10_witness :
    validarHabilidadeArea "XYZ".toList (some "CI".toList) = false ∧
    (prefixoDe ['E', 'M'] "XYZ".toList = false → efDoisDigitos "XYZ".toList = none →
      validarHabilidadeAno "XYZ".toList (some 5) = true) :=
  c10_area_rejeita_malformados "XYZ".toList "CI".toList 5 (by decide)
    (by
      rintro ⟨c1, d1, d2, ls, ds, hEq, -⟩
      have : "XYZ".toList.length = ('E' :: c1 :: d1 :: d2 :: (ls ++ ds)).length := by rw [hEq]
      simp [List.length_append] at this)

lemma removerAux_inv (maxNodes : Nat) :
    ∀ (nodes acc : List Enriched) (seen : List Nat),
      (∀ e ∈ acc, ∃ p, e.base.page_number = some p ∧ p ≠ 0 ∧ p ∈ seen) →
      (acc.map (fun e => e.base.page_number)).Nodup →
      acc.length ≤ maxNodes →
      (∀ e ∈ removerAux maxNodes nodes acc seen,
        ∃ p, e.base.page_number = some p ∧ p ≠ 0) ∧
      ((removerAux maxNodes nodes acc seen).map (fun e => e.base.page_number)).Nodup ∧
      (removerAux maxNodes nodes acc seen).length ≤ maxNodes := by
  intro nodes
  induction nodes with
  | nil =>
    intro acc seen hmem hnodup hlen
    refine ⟨?_, hnodup, hlen⟩
    intro e he
    obtain ⟨p, hp, hne, -⟩ := hmem e he
    exact ⟨p, hp, hne⟩
  | cons node rest ih =>
    intro acc seen hmem hnodup hlen
    have hcons : removerAux maxNodes (node :: rest) acc seen =
        (match node.base.page_number with
         | some page =>
           if page ≠ 0 && !seen.contains page && decide (acc.length < maxNodes)
           then removerAux maxNodes rest (acc ++ [node]) (page :: seen)
           else removerAux maxNodes rest acc seen
         | none => removerAux maxNodes rest acc seen) := rfl
    rw [hcons]
    split
    case h_2 hpg => exact ih acc seen hmem hnodup hlen
    case h_1 page hpg =>
      split
      case isTrue hguard =>
        simp only [Bool.and_eq_true, decide_eq_true_eq, Bool.not_eq_true'] at hguard
        obtain ⟨⟨hp0, hnotseen⟩, hlt⟩ := hguard
        have hpagemem : page ∉ seen := by
          simp at hnotseen
          exact hnotseen
        apply ih
        · intro e he
          rcases List.mem_append.mp he with hin | hin
          · obtain ⟨p, hp, hne, hs⟩ := hmem e hin
            exact ⟨p, hp, hne, List.mem_cons_of_mem _ hs⟩
          · rcases List.mem_singleton.mp hin with rfl
            exact ⟨page, hpg, hp0, List.mem_cons_self _ _⟩
        · rw [List.map_append]
          refine List.Nodup.append hnodup (by simp) ?_
          intro x hx hx2
          simp only [List.map_cons, List.map_nil, List.mem_singleton] at hx2
          subst hx2
          obtain ⟨e, he, hpe⟩ := List.mem_map.mp hx
          obtain ⟨p, hp, -, hs⟩ := hmem e he
          rw [hp] at hpe
          rw [hpg] at hpe
          cases hpe
          exact hpagemem hs
        · simp only [List.length_append, List.length_cons, List.length_nil]
          omega
      case isFalse hguard => exact ih acc seen hmem hnodup hlen

/-- C7: the deduplicator's output contains only passages with a truthy
(resolvable) page number, contains no two passages with the same page
number, and never exceeds `maxNodes` passages. -/
theorem c7_removerNodesDuplicados_invariantes (nodes : List Enriched) (maxNodes : Nat) :
    (∀ e ∈ removerNodesDuplicados nodes maxNodes,
      ∃ p, e.base.page_number = some p ∧ p ≠ 0) ∧
    ((removerNodesDuplicados nodes maxNodes).map (fun e => e.base.page_number)).Nodup ∧
    (removerNodesDuplicados nodes maxNodes).length ≤ maxNodes := by
  apply removerAux_inv
  · intro e he
    exact absurd he (List.not_mem_nil e)
  · exact List.nodup_nil
  · simp

/-- Witness for C7 on a concrete two-node list with a duplicated page. -/
theorem c7_witness :
    (∃ p, (enriquecido ("a".toList)).base.page_number = some p ∧ p ≠ 0) ∧
    (removerNodesDuplicados [enriquecido ("a".toList), enriquecido ("b".toList)] 10).length ≤ 10 :=
  ⟨(c7_removerNodesDuplicados_invariantes [enriquecido ("a".toList), enriquecido ("b".toList)]
      10).1 (enriquecido ("a".toList)) (by decide),
   (c7_removerNodesDuplicados_invariantes [enriquecido ("a".toList), enriquecido ("b".toList)]
      10).2.2⟩

lemma extrair_membro_nivel {nodes : List Enriched} {nivel : NivelEscolar}
    {area : Option LChar} {ano : Option Nat} {h : Habilidade}
    (hmem : h ∈ extrairHabilidadesBNCC nodes nivel area ano) :
    validarHabilidadeNivel h.codigo nivel = true := by
  unfold extrairHabilidadesBNCC at hmem
  obtain ⟨par, hpar, rfl⟩ := List.mem_map.mp hmem
  have hpar2 : par ∈ ((capturasDe nodes).foldl passoCaptura []).filter (fun par =>
      validarHabilidadeNivel par.1 nivel
        && (!areaTruthy area || validarHabilidadeArea par.1 area)
        && (!anoTruthy ano || validarHabilidadeAno par.1 ano)) :=
    List.mem_of_mem_take hpar
  have hpred := List.of_mem_filter hpar2
  simp only [Bool.and_eq_true] at hpred
  exact hpred.1.1

/-- C9: filtering a code list with `validarHabilidadeNivel` at a fixed
level is idempotent, and the controller's final re-validation of the
extractor's output (already filtered at the same level inside
`extrairHabilidadesBNCC`) removes nothing. -/
theorem c9_revalidacao_identidade (codes : List LChar) (nivel : NivelEscolar)
    (nodes : List Enriched) (area : Option LChar) (ano : Option Nat) :
    ((codes.filter (validarHabilidadeNivel · nivel)).filter (validarHabilidadeNivel · nivel)
        = codes.filter (validarHabilidadeNivel · nivel)) ∧
    ((extrairHabilidadesBNCC nodes nivel area ano).filter
        (fun h => validarHabilidadeNivel h.codigo nivel)
      = extrairHabilidadesBNCC nodes nivel area ano) := by
  constructor
  · rw [List.filter_filter]
    apply List.filter_congr
    intro a _
    rw [Bool.and_self]
  · apply List.filter_eq_self.mpr
    intro h hmem
    exact extrair_membro_nivel hmem

section MapaHabilidades

lemma chaves_grava_mem {m : List (LChar × LChar)} {c : LChar} (d : LChar)
    (h : c ∈ m.map Prod.fst) :
    (gravaMaisLonga m c d).map Prod.fst = m.map Prod.fst := by
  induction m with
  | nil => simp at h
  | cons par rest ih =>
    obtain ⟨c', d'⟩ := par
    by_cases hc : c' = c
    · subst hc
      unfold gravaMaisLonga
      rw [if_pos rfl]
      by_cases hl : d'.length < d.length
      · rw [if_pos hl]; simp
      · rw [if_neg hl]
    · unfold gravaMaisLonga
      rw [if_neg hc]
      simp only [List.map_cons, List.cons.injEq, true_and]
      apply ih
      simp only [List.map_cons, List.mem_cons] at h
      rcases h with h | h
      · exact absurd h.symm hc
      · exact h

lemma chaves_grava_not_mem {m : List (LChar × LChar)} {c : LChar} (d : LChar)
    (h : c ∉ m.map Prod.fst) :
    (gravaMaisLonga m c d).map Prod.fst = m.map Prod.fst ++ [c] := by
  induction m with
  | nil => simp [gravaMaisLonga]
  | cons par rest ih =>
    obtain ⟨c', d'⟩ := par
    simp only [List.map_cons, List.mem_cons] at h
    push_neg at h
    unfold gravaMaisLonga
    rw [if_neg (fun he => h.1 he.symm)]
    simp only [List.map_cons, List.cons_append, List.cons.injEq, true_and]
    exact ih h.2

lemma nodup_chaves_grava {m : List (LChar × LChar)} {c d : LChar}
    (h : (m.map Prod.fst).Nodup) : ((gravaMaisLonga m c d).map Prod.fst).Nodup := by
  by_cases hc : c ∈ m.map Prod.fst
  · rw [chaves_grava_mem d hc]; exact h
  · rw [chaves_grava_not_mem d hc]
    refine List.Nodup.append h (by simp) ?_
    intro a ha hb
    simp only [List.mem_singleton] at hb
    subst hb
    exact hc ha

lemma nodup_chaves_foldl :
    ∀ (caps : List (LChar × LChar)) (m : List (LChar × LChar)),
      (m.map Prod.fst).Nodup → ((caps.foldl passoCaptura m).map Prod.fst).Nodup := by
  intro caps
  induction caps with
  | nil => intro m h; exact h
  | cons par rest ih =>
    intro m h
    rw [List.foldl_cons]
    apply ih
    unfold passoCaptura
    split
    · exact nodup_chaves_grava h
    · exact h

lemma busca_grava_mesma (m : List (LChar × LChar)) (c d : LChar) :
    busca (gravaMaisLonga m c d) c =
      some (match busca m c with
            | none => d
            | some d' => if d'.length < d.length then d else d') := by
  induction m with
  | nil => simp [gravaMaisLonga, busca]
  | cons par rest ih =>
    obtain ⟨c', d'⟩ := par
    by_cases hc : c' = c
    · subst hc
      unfold gravaMaisLonga
      rw [if_pos rfl]
      by_cases hl : d'.length < d.length
      · rw [if_pos hl]
        simp [busca, hl]
      · rw [if_neg hl]
        simp [busca, hl]
    · unfold gravaMaisLonga
      rw [if_neg hc]
      unfold busca
      rw [if_neg hc, if_neg hc]
      exact ih

lemma busca_grava_outra {m : List (LChar × LChar)} {a c : LChar} (d : LChar) (h : c ≠ a) :
    busca (gravaMaisLonga m c d) a = busca m a := by
  induction m with
  | nil => simp [gravaMaisLonga, busca, h]
  | cons par rest ih =>
    obtain ⟨c', d'⟩ := par
    by_cases hc : c' = c
    · subst hc
      unfold gravaMaisLonga
      rw [if_pos rfl]
      by_cases hl : d'.length < d.length
      · rw [if_pos hl]
        unfold busca
        rw [if_neg h, if_neg h]
      · rw [if_neg hl]
    · unfold gravaMaisLonga
      rw [if_neg hc]
      unfold busca
      by_cases ha : c' = a
      · rw [if_pos ha, if_pos ha]
      · rw [if_neg ha, if_neg ha]
        exact ih

lemma busca_grava_nova {m : List (LChar × LChar)} {c : LChar} (d : LChar)
    (h : busca m c = none) : busca (gravaMaisLonga m c d) c = some d := by
  have hb := busca_grava_mesma m c d
  rw [h] at hb
  exact hb

lemma busca_grava_atualiza {m : List (LChar × LChar)} {c d' : LChar} (d : LChar)
    (h : busca m c = some d') :
    busca (gravaMaisLonga m c d) c = some (if d'.length < d.length then d else d') := by
  have hb := busca_grava_mesma m c d
  rw [h] at hb
  exact hb

lemma busca_foldl_cresce :
    ∀ (caps : List (LChar × LChar)) (m : List (LChar × LChar)) (c v : LChar),
      busca m c = some v →
      ∃ w, busca (caps.foldl passoCaptura m) c = some w ∧ v.length ≤ w.length := by
  intro caps
  induction caps with
  | nil => intro m c v h; exact ⟨v, h, le_refl _⟩
  | cons par rest ih =>
    intro m c v h
    rw [List.foldl_cons]
    obtain ⟨c0, d0⟩ := par
    unfold passoCaptura
    split
    case isTrue hlong =>
      by_cases hc : c0 = c
      · subst hc
        have hb := busca_grava_atualiza d0 h
        by_cases hl : v.length < d0.length
        · rw [if_pos hl] at hb
          obtain ⟨w, hw, hlew⟩ := ih _ _ _ hb
          exact ⟨w, hw, le_trans (le_of_lt hl) hlew⟩
        · rw [if_neg hl] at hb
          exact ih _ _ _ hb
      · have hb := busca_grava_outra (m := m) d0 hc
        rw [h] at hb
        exact ih _ _ _ hb
    case isFalse => exact ih _ _ _ h

lemma busca_foldl_max :
    ∀ (caps : List (LChar × LChar)) (m : List (LChar × LChar)) (c v : LChar),
      busca (caps.foldl passoCaptura m) c = some v →
      ∀ d, (c, d) ∈ caps → d.length > 10 → d.length ≤ v.length := by
  intro caps
  induction caps with
  | nil => intro m c v _ d hd; exact absurd hd (List.not_mem_nil _)
  | cons par rest ih =>
    intro m c v hfinal d hd hlen
    rw [List.foldl_cons] at hfinal
    rcases List.mem_cons.mp hd with heq | hrest
    · obtain ⟨c0, d0⟩ := par
      injection heq with hc hdv
      subst hc
      subst hdv
      have hpasso : passoCaptura m (c, d) = gravaMaisLonga m c d := by
        unfold passoCaptura
        rw [if_pos hlen]
      rw [hpasso] at hfinal
      have hgw : ∃ w, busca (gravaMaisLonga m c d) c = some w ∧ d.length ≤ w.length := by
        cases hbm : busca m c with
        | none => exact ⟨d, busca_grava_nova d hbm, le_refl _⟩
        | some d' =>
          have hb := busca_grava_atualiza d hbm
          by_cases hl : d'.length < d.length
          · rw [if_pos hl] at hb
            exact ⟨d, hb, le_refl _⟩
          · rw [if_neg hl] at hb
            exact ⟨d', hb, by omega⟩
      obtain ⟨w, hw, hdw⟩ := hgw
      obtain ⟨w2, hw2, hle2⟩ := busca_foldl_cresce rest _ c w hw
      rw [hfinal] at hw2
      cases hw2
      exact le_trans hdw hle2
    · exact ih _ _ _ hfinal d hrest hlen

lemma busca_foldl_origem :
    ∀ (caps : List (LChar × LChar)) (m : List (LChar × LChar)) (c v : LChar),
      busca (caps.foldl passoCaptura m) c = some v →
      busca m c = some v ∨ ((c, v) ∈ caps ∧ v.length > 10) := by
  intro caps
  induction caps with
  | nil => intro m c v h; exact Or.inl h
  | cons par rest ih =>
    intro m c v hfinal
    rw [List.foldl_cons] at hfinal
    rcases ih _ _ _ hfinal with hm2 | ⟨hmem, hlen⟩
    · obtain ⟨c0, d0⟩ := par
      unfold passoCaptura at hm2
      by_cases hlong : d0.length > 10
      · rw [if_pos hlong] at hm2
        by_cases hc : c0 = c
        · subst hc
          cases hbm : busca m c0 with
          | none =>
            rw [busca_grava_nova d0 hbm] at hm2
            cases hm2
            exact Or.inr ⟨List.mem_cons_self _ _, hlong⟩
          | some d' =>
            rw [busca_grava_atualiza d0 hbm] at hm2
            by_cases hl : d'.length < d0.length
            · rw [if_pos hl] at hm2
              cases hm2
              exact Or.inr ⟨List.mem_cons_self _ _, hlong⟩
            · rw [if_neg hl] at hm2
              cases hm2
              exact Or.inl rfl
        · rw [busca_grava_outra d0 hc] at hm2
          exact Or.inl hm2
      · rw [if_neg hlong] at hm2
        exact Or.inl hm2
    · exact Or.inr ⟨List.mem_cons_of_mem _ hmem, hlen⟩

lemma busca_of_mem_nodup :
    ∀ {m : List (LChar × LChar)} {c v : LChar},
      (c, v) ∈ m → (m.map Prod.fst).Nodup → busca m c = some v := by
  intro m
  induction m with
  | nil => intro c v h _; exact absurd h (List.not_mem_nil _)
  | cons par rest ih =>
    intro c v h hnodup
    obtain ⟨c', d'⟩ := par
    simp only [List.map_cons, List.nodup_cons] at hnodup
    rcases List.mem_cons.mp h with heq | hrest
    · injection heq with h1 h2
      subst h1
      subst h2
      unfold busca
      rw [if_pos rfl]
    · unfold busca
      by_cases hc : c' = c
      · subst hc
        exact absurd (List.mem_map.mpr ⟨(c', v), hrest, rfl⟩) hnodup.1
      · rw [if_neg hc]
        exact ih hrest hnodup.2

end MapaHabilidades

/-- Every record emitted by the extractor comes from a capture whose
description is the stored one, is longer than 10 characters, and is
maximal among all captures of the same code. -/
lemma saida_em_capturas {nodes : List Enriched} {nivel : NivelEscolar}
    {area : Option LChar} {ano : Option Nat} {h : Habilidade}
    (hmem : h ∈ extrairHabilidadesBNCC nodes nivel area ano) :
    (h.codigo, h.descricao) ∈ capturasDe nodes ∧ h.descricao.length > 10 ∧
      ∀ d, (h.codigo, d) ∈ capturasDe nodes → d.length ≤ h.descricao.length := by
  have hmapa : (((capturasDe nodes).foldl passoCaptura []).map Prod.fst).Nodup :=
    nodup_chaves_foldl _ [] (by simp)
  unfold extrairHabilidadesBNCC at hmem
  obtain ⟨par, hpar, rfl⟩ := List.mem_map.mp hmem
  obtain ⟨c, dsc⟩ := par
  have hparm : (c, dsc) ∈ (capturasDe nodes).foldl passoCaptura [] :=
    (List.filter_sublist _).subset (List.mem_of_mem_take hpar)
  have hbusca : busca ((capturasDe nodes).foldl passoCaptura []) c = some dsc :=
    busca_of_mem_nodup hparm hmapa
  rcases busca_foldl_origem _ [] _ _ hbusca with hvazio | ⟨hmemcap, hlong⟩
  · exact absurd hvazio (by simp [busca])
  refine ⟨hmemcap, hlong, ?_⟩
  intro d hd
  show d.length ≤ dsc.length
  by_cases hlen : d.length > 10
  · exact busca_foldl_max _ [] _ _ hbusca d hd hlen
  · omega

/-- C6: the extractor's output never contains two records with the same
code, and the record kept for a code carries a capture of that code of
maximal description length (the longest captured description wins). -/
theorem c6_extrator_codigo_unico (nodes : List Enriched) (nivel : NivelEscolar)
    (area : Option LChar) (ano : Option Nat) :
    ((extrairHabilidadesBNCC nodes nivel area ano).map (fun h => h.codigo)).Nodup ∧
    ∀ h ∈ extrairHabilidadesBNCC nodes nivel area ano,
      (h.codigo, h.descricao) ∈ capturasDe nodes ∧
      ∀ d, (h.codigo, d) ∈ capturasDe nodes → d.length ≤ h.descricao.length := by
  constructor
  · have hmapa : (((capturasDe nodes).foldl passoCaptura []).map Prod.fst).Nodup :=
      nodup_chaves_foldl _ [] (by simp)
    unfold extrairHabilidadesBNCC
    rw [List.map_map]
    have hcomp : ((fun h => h.codigo)
        ∘ (fun par : LChar × LChar => ({ codigo := par.1, descricao := par.2 } : Habilidade)))
        = Prod.fst := rfl
    rw [hcomp]
    refine List.Nodup.sublist ?_ hmapa
    exact List.Sublist.map _ ((List.take_sublist _ _).trans (List.filter_sublist _))
  · intro h hmem
    obtain ⟨h1, -, h3⟩ := saida_em_capturas hmem
    exact ⟨h1, h3⟩

/-- Witness for C6 on a concrete node: the single capture is returned and
dominates itself. -/
theorem c6_witness :
    (({ codigo := "EF09GE01".toList, descricao := "abcdefghijklm".toList } : Habilidade).codigo,
      ({ codigo := "EF09GE01".toList, descricao := "abcdefghijklm".toList } : Habilidade).descricao)
      ∈ capturasDe [enriquecido ("EF09GE01 abcdefghijklm".toList)] :=
  ((c6_extrator_codigo_unico [enriquecido ("EF09GE01 abcdefghijklm".toList)]
      .fundamental none none).2
    { codigo := "EF09GE01".toList, descricao := "abcdefghijklm".toList } (by decide)).1

lemma processaDescricao_limite (bruto : LChar) : (processaDescricao bruto).length ≤ 203 := by
  unfold processaDescricao
  simp only []
  split
  case isTrue h =>
    rw [List.length_append, List.length_take]
    simp only [List.length_cons, List.length_nil]
    omega
  case isFalse h => omega

lemma capturasAux_limite :
    ∀ (fuel : Nat) (s : LChar), ∀ par ∈ capturasAux fuel s, par.2.length ≤ 203 := by
  intro fuel
  induction fuel with
  | zero => intro s par hpar; exact absurd hpar (List.not_mem_nil _)
  | succ fuel ih =>
    intro s par hpar
    cases s with
    | nil => exact absurd hpar (List.not_mem_nil _)
    | cons c rest =>
      unfold capturasAux at hpar
      split at hpar
      case h_1 n htam =>
        rcases List.mem_cons.mp hpar with heq | hrest
        · subst heq
          exact processaDescricao_limite _
        · exact ih _ _ hrest
      case h_2 => exact ih _ _ hpar

/-- C4 (amended): every description emitted by the extractor has at most
203 characters — the 200-character truncation plus the 3-character
ellipsis appended afterwards. -/
theorem c4_descricao_limite (nodes : List Enriched) (nivel : NivelEscolar)
    (area : Option LChar) (ano : Option Nat) :
    ∀ h ∈ extrairHabilidadesBNCC nodes nivel area ano, h.descricao.length ≤ 203 := by
  intro h hmem
  obtain ⟨hcap, -, -⟩ := saida_em_capturas hmem
  unfold capturasDe at hcap
  obtain ⟨nd, -, hin⟩ := List.mem_flatMap.mp hcap
  exact capturasAux_limite _ _ _ hin

set_option maxRecDepth 20000 in
/-- C4 counterexample: a capture whose trailing text has 210 characters
is stored as 200 characters plus a 3-character ellipsis — 203 characters,
above the claimed 200-character bound. -/
theorem c4_contraexemplo :
    ((extrairHabilidadesBNCC [enriquecido ("EF09GE01 ".toList ++ List.replicate 210 'a')]
        .fundamental none none).map (fun h => h.descricao.length) = [203]) ∧ ¬ (203 ≤ 200) := by
  constructor
  · decide
  · decide

/-- Witness for C4 (amended) at a concrete extraction. -/
theorem c4_witness :
    ({ codigo := "EF07MA01".toList, descricao := "compreender fenomenos".toList }
        : Habilidade).descricao.length ≤ 203 :=
  c4_descricao_limite [enriquecido ("EF07MA01 compreender fenomenos".toList)]
    .fundamental none none
    { codigo := "EF07MA01".toList, descricao := "compreender fenomenos".toList } (by decide)

section Pontuacoes

lemma passoCodigo_pen_mono (nv : NivelEscolar) (ae : Option Nat) (ab : Option LChar)
    (bp : Int × Int) (c : LChar) : (passoCodigo nv ae ab bp c).2 ≤ bp.2 := by
  unfold passoCodigo
  simp only []
  repeat' split
  all_goals simp [PONTUACAO.PENALIDADE_HABILIDADE_NIVEL_ERRADO,
    PONTUACAO.PENALIDADE_HABILIDADE_ANO_ERRADO, PONTUACAO.PENALIDADE_HABILIDADE_AREA_ERRADA]

lemma passoCodigo_pen_bad (nv : NivelEscolar) (ae : Option Nat) (ab : Option LChar)
    (bp : Int × Int) (c : LChar)
    (h : validarHabilidadeNivel (paraMaiusculas c) nv = false) :
    (passoCodigo nv ae ab bp c).2 = bp.2 + PONTUACAO.PENALIDADE_HABILIDADE_NIVEL_ERRADO := by
  unfold passoCodigo
  simp only []
  rw [h]
  simp

lemma foldl_pen_mono (nv : NivelEscolar) (ae : Option Nat) (ab : Option LChar) :
    ∀ (l : List LChar) (bp : Int × Int),
      (l.foldl (passoCodigo nv ae ab) bp).2 ≤ bp.2 := by
  intro l
  induction l with
  | nil => intro bp; exact le_refl _
  | cons c rest ih =>
    intro bp
    rw [List.foldl_cons]
    exact le_trans (ih _) (passoCodigo_pen_mono nv ae ab bp c)

lemma foldl_pen_bad (nv : NivelEscolar) (ae : Option Nat) (ab : Option LChar) :
    ∀ (l : List LChar) (bp : Int × Int),
      (∃ c ∈ l, validarHabilidadeNivel (paraMaiusculas c) nv = false) →
      (l.foldl (passoCodigo nv ae ab) bp).2 ≤ bp.2 - 50 := by
  intro l
  induction l with
  | nil => intro bp h; obtain ⟨c, hc, -⟩ := h; exact absurd hc (List.not_mem_nil _)
  | cons c rest ih =>
    intro bp h
    rw [List.foldl_cons]
    obtain ⟨c', hc', hbad⟩ := h
    rcases List.mem_cons.mp hc' with rfl | hrest
    · have hstep := passoCodigo_pen_bad nv ae ab bp c' hbad
      have hmono := foldl_pen_mono nv ae ab rest (passoCodigo nv ae ab bp c')
      rw [hstep] at hmono
      simp only [PONTUACAO.PENALIDADE_HABILIDADE_NIVEL_ERRADO] at hmono
      omega
    · have hstep := passoCodigo_pen_mono nv ae ab bp c
      have hrec := ih (passoCodigo nv ae ab bp c) ⟨c', hrest, hbad⟩
      omega

lemma foldl_frase_mono (texto : LChar) :
    ∀ (ws : List LChar) (p : Int),
      ws.foldl (fun p w =>
        if contem texto w then p + PONTUACAO.PENALIDADE_MENCIONOU_NIVEL_ERRADO else p) p ≤ p := by
  intro ws
  induction ws with
  | nil => intro p; exact le_refl _
  | cons w rest ih =>
    intro p
    rw [List.foldl_cons]
    by_cases hw : contem texto w = true
    · rw [if_pos hw]
      refine le_trans (ih _) ?_
      simp only [PONTUACAO.PENALIDADE_MENCIONOU_NIVEL_ERRADO]
      omega
    · rw [if_neg hw]
      exact ih p

lemma enriquecerNode_base (tema disciplina serie : LChar) (ab : Option LChar)
    (nv : NivelEscolar) (ae : Option Nat) (pc : LChar) (pe : List LChar) (node : SourceNode) :
    (enriquecerNode tema disciplina serie ab nv ae pc pe node).base = node := rfl

lemma enriquecerNode_pen_bad (tema disciplina serie : LChar) (ab : Option LChar)
    (nv : NivelEscolar) (ae : Option Nat) (pc : LChar) (pe : List LChar) (node : SourceNode)
    (hbad : ∃ c ∈ buscaCodigosCI (paraMinusculas (node.text.getD [])),
      validarHabilidadeNivel (paraMaiusculas c) nv = false) :
    (enriquecerNode tema disciplina serie ab nv ae pc pe node).penalizacaoNivel ≤ -50 := by
  unfold enriquecerNode
  simp only []
  refine le_trans (foldl_frase_mono _ pe _) ?_
  refine le_trans (foldl_pen_bad nv ae ab _ _ hbad) ?_
  omega

end Pontuacoes

lemma mem_insereDesc {a x : Enriched} : ∀ {l : List Enriched}, a ∈ insereDesc x l → a = x ∨ a ∈ l := by
  intro l
  induction l with
  | nil =>
    intro h
    simp only [insereDesc, List.mem_singleton] at h
    exact Or.inl h
  | cons y ys ih =>
    intro h
    unfold insereDesc at h
    split at h
    · rcases List.mem_cons.mp h with rfl | h2
      · exact Or.inl rfl
      · exact Or.inr h2
    · rcases List.mem_cons.mp h with rfl | h2
      · exact Or.inr (List.mem_cons_self _ _)
      · rcases ih h2 with h3 | h3
        · exact Or.inl h3
        · exact Or.inr (List.mem_cons_of_mem _ h3)

lemma mem_ordenaDesc {a : Enriched} : ∀ {l : List Enriched}, a ∈ ordenaDesc l → a ∈ l := by
  intro l
  induction l with
  | nil => intro h; exact absurd h (List.not_mem_nil _)
  | cons x xs ih =>
    intro h
    unfold ordenaDesc at h
    rcases mem_insereDesc h with rfl | h2
    · exact List.mem_cons_self _ _
    · exact List.mem_cons_of_mem _ (ih h2)

/-- C1 (amended): a single level-mismatched taxonomy code already crosses
the hard cutoff — its penalty (-50) is larger in magnitude than the
cutoff (-30) — so every passage surviving the filter has only
level-consistent codes; in particular a passage whose only penalty is one
level-mismatched code is removed, not kept. -/
theorem c1_filtro_remove_nivel_errado (nodes : List SourceNode)
    (tema disciplina serie : LChar) (areaBNCC : Option LChar) :
    ∀ e ∈ filtrarNodesPorRelevancia nodes tema disciplina serie areaBNCC,
      ∀ c ∈ buscaCodigosCI (paraMinusculas (e.base.text.getD [])),
        validarHabilidadeNivel (paraMaiusculas c) (detectarNivelEscolar serie) = true := by
  intro e he c hc
  unfold filtrarNodesPorRelevancia at he
  have he2 := mem_ordenaDesc he
  have hfil := List.of_mem_filter he2
  have he3 := List.mem_of_mem_filter he2
  unfold enriquecerNodes at he3
  obtain ⟨nd, hnd, rfl⟩ := List.mem_map.mp he3
  rw [enriquecerNode_base] at hc
  by_contra hbad
  have hbad2 : validarHabilidadeNivel (paraMaiusculas c) (detectarNivelEscolar serie) = false := by
    cases hv : validarHabilidadeNivel (paraMaiusculas c) (detectarNivelEscolar serie) with
    | true => exact absurd hv hbad
    | false => rfl
  have hpen := enriquecerNode_pen_bad tema disciplina serie areaBNCC
    (detectarNivelEscolar serie) (extrairNumeroAno serie)
    (palavrasNivel (detectarNivelEscolar serie)).1 (palavrasNivel (detectarNivelEscolar serie)).2
    nd ⟨c, hc, hbad2⟩
  unfold filtroRelevancia at hfil
  split at hfil
  case isTrue => exact absurd hfil (by simp)
  case isFalse hge => omega

/-- C1 counterexample: a passage whose only penalty source is a single
level-mismatched code (`em13mat302` under a `fundamental` request)
receives exactly the single level penalty of -50 and is removed by the
-30 cutoff, even though it carries topic boosts. -/
theorem c1_contraexemplo :
    ((enriquecerNodes [nodeMismatch] "guerra".toList "história".toList "7º ano".toList none).map
        (fun e => (e.matchCount, e.penalizacaoNivel))
      = [(90, PONTUACAO.PENALIDADE_HABILIDADE_NIVEL_ERRADO)]) ∧
    filtrarNodesPorRelevancia [nodeMismatch] "guerra".toList "história".toList "7º ano".toList none
      = [] := by
  constructor
  · decide
  · decide

/-- Witness for C1 (amended) on a level-consistent concrete passage. -/
theorem c1_witness :
    validarHabilidadeNivel (paraMaiusculas ("ef09ge01".toList))
      (detectarNivelEscolar ("9º ano".toList)) = true := by
  have hmem : (enriquecerNode "guerra fria".toList "história".toList "9º ano".toList none
        (detectarNivelEscolar ("9º ano".toList)) (extrairNumeroAno ("9º ano".toList))
        (palavrasNivel (detectarNivelEscolar ("9º ano".toList))).1
        (palavrasNivel (detectarNivelEscolar ("9º ano".toList))).2 nodeCorreto)
      ∈ filtrarNodesPorRelevancia [nodeCorreto] "guerra fria".toList "história".toList
        "9º ano".toList none := by
    rw [show filtrarNodesPorRelevancia [nodeCorreto] "guerra fria".toList "história".toList
          "9º ano".toList none
        = [enriquecerNode "guerra fria".toList "história".toList "9º ano".toList none
            (detectarNivelEscolar ("9º ano".toList)) (extrairNumeroAno ("9º ano".toList))
            (palavrasNivel (detectarNivelEscolar ("9º ano".toList))).1
            (palavrasNivel (detectarNivelEscolar ("9º ano".toList))).2 nodeCorreto] from rfl]
    exact List.mem_singleton.mpr rfl
  exact c1_filtro_remove_nivel_errado [nodeCorreto] "guerra fria".toList "história".toList
    "9º ano".toList none _ hmem ("ef09ge01".toList) (by decide)

lemma foldl_sucessos_filtra :
    ∀ (resultados : List (Except Unit RAGQueryResult)) (acc : List RAGQueryResult),
      resultados.foldl
        (fun acc r => match r with | .ok q => acc ++ [q] | .error _ => acc) acc
      = (resultados.filter (fun r => r.isOk)).foldl
        (fun acc r => match r with | .ok q => acc ++ [q] | .error _ => acc) acc := by
  intro resultados
  induction resultados with
  | nil => intro acc; rfl
  | cons r rest ih =>
    intro acc
    cases r with
    | ok q =>
      rw [List.foldl_cons, show (List.filter (fun r => r.isOk) (.ok q :: rest))
          = .ok q :: rest.filter (fun r => r.isOk) from rfl, List.foldl_cons]
      exact ih _
    | error e =>
      rw [List.foldl_cons, show (List.filter (fun r => r.isOk) (.error e :: rest))
          = rest.filter (fun r => r.isOk) from rfl]
      exact ih _

/-- C5 (amended): an individual failed query contributes nothing — the
aggregation on any outcome list equals the aggregation on its successful
outcomes only — and the pipeline never fails outright: for every outcome
list, including one where all planned queries fail, `consultarBNCC`
returns a result. -/
theorem c5_falhas_isoladas (tema disciplina serie : LChar)
    (resultados : List (Except Unit RAGQueryResult)) :
    (consultarBNCC tema disciplina serie resultados
      = consultarBNCC tema disciplina serie (resultados.filter (fun r => r.isOk))) ∧
    ∃ r, consultarBNCC tema disciplina serie resultados = .ok r := by
  constructor
  · unfold consultarBNCC
    rw [foldl_sucessos_filtra]
  · exact ⟨_, rfl⟩

/-- C5 counterexample: with every planned query failing, the pipeline
does not fail outright — it returns an empty aggregated result. -/
theorem c5_contraexemplo :
    consultarBNCC "luz".toList "ciências".toList "7º ano".toList
        [.error (), .error (), .error ()]
      = .ok { response := [], sourceNodes := [], habilidades := [] } := rfl
